import Mathlib

/-
  Verification of the upload orchestration engine in src/server.js.

  The remote object store (Google Drive) is an external collaborator; it is
  modelled as an explicit store state plus scripted transport failures and
  scripted chunk acknowledgements.  Remote identifiers are opaque strings in
  the service; folder identifiers are modelled as naturals so that the
  freshness of newly created identifiers is explicit.  File identifiers
  returned in response bodies stay strings.  Floating-point display helper
  formatFileSize is not modelled; human-readable messages that embed it are
  replaced by fixed strings (no claim depends on the message text).
-/

namespace DriveUpload

/- Configuration constants, src/server.js lines 12-18. -/

def MAX_FILE_SIZE : Nat := 2 * 1024 * 1024 * 1024

def MAX_TOTAL_SIZE : Nat := 5 * 1024 * 1024 * 1024

def MAX_FILES : Nat := 500

def CHUNK_SIZE : Nat := 8 * 1024 * 1024

/- Threshold of the size-based dispatch in uploadFileToDrive, line 270. -/
def SIMPLE_UPLOAD_THRESHOLD : Nat := 5 * 1024 * 1024

/- The root folder id CONFIG.MAIN_FOLDER_ID (an opaque string in the code,
   modelled as the designated natural 0). -/
def MAIN_FOLDER_ID : Nat := 0

/- One entry of the remote store, as visible through files.list queries. -/
structure Entry where
  id : Nat
  name : String
  parent : Nat
  isFolder : Bool
  trashed : Bool
deriving DecidableEq, Repr

/- The remote store: its entries, and the next fresh identifier the remote
   side will hand out on creation. -/
structure Store where
  entries : List Entry
  nextId : Nat
deriving DecidableEq, Repr

/- Store plus a script of transport failures, consumed one per remote round
   trip: `some msg` makes that call fail with msg, `none` lets it through
   (an exhausted script means no further failures). -/
structure DriveState where
  store : Store
  failures : List (Option String)
deriving DecidableEq, Repr

def popFailure (st : DriveState) : Option String × DriveState :=
  (st.failures.headD none, ⟨st.store, st.failures.tail⟩)

/- The query of findFolder: name and parent match, folders only, not
   trashed (src/server.js line 227). -/
def folderQuery (name : String) (parentId : Nat) : Entry → Bool :=
  fun e => e.name == name && e.parent == parentId && e.isFolder && !e.trashed

/- findFolder, src/server.js lines 224-236: queries by name under a parent,
   restricted to non-trashed folders, returning the first match; a transport
   error is caught and turned into null (lines 232-235). -/
def findFolder (st : DriveState) (parentId : Nat) (name : String) :
    Option Entry × DriveState :=
  match popFailure st with
  | (some _, st1) => (none, st1)
  | (none, st1) => (st1.store.entries.find? (folderQuery name parentId), st1)

/- createFolder, src/server.js lines 239-255: creates a folder entry under a
   parent; a transport error is logged and rethrown (lines 251-253). -/
def createFolder (name : String) (parentId : Nat) (st : DriveState) :
    DriveState × Except String Entry :=
  match popFailure st with
  | (some m, st1) => (st1, .error m)
  | (none, st1) =>
    let e : Entry := ⟨st1.store.nextId, name, parentId, true, false⟩
    (⟨⟨st1.store.entries ++ [e], st1.store.nextId + 1⟩, st1.failures⟩, .ok e)

/- The folder-hierarchy loop of getOrCreateFolderPath, src/server.js lines
   203-221: for each segment find the folder, else create it, and descend.
   The final state is returned alongside the result because the remote store
   keeps the folders created before a failure. -/
def resolveSegments : List String → Nat → DriveState → DriveState × Except String Nat
  | [], current, st => (st, .ok current)
  | name :: rest, current, st =>
    match findFolder st current name with
    | (some e, st1) => resolveSegments rest e.id st1
    | (none, st1) =>
      match createFolder name current st1 with
      | (st2, .ok e) => resolveSegments rest e.id st2
      | (st2, .error m) => (st2, .error m)

/- Capitalisation of the platform segment, src/server.js lines 189-190. -/
def capitalizePlatform (platform : String) : String :=
  if platform = "of" then "OF"
  else
    match platform.data with
    | [] => ""
    | c :: cs => ⟨c.toUpper :: cs⟩

/- Path construction of getOrCreateFolderPath, src/server.js lines 185-201. -/
def buildFolderPath (modelName platform category : String)
    (scriptTitle : Option String) : List String :=
  [modelName, capitalizePlatform platform, category]
    ++ (match scriptTitle with
        | some t => if category = "Scripts" then [t] else []
        | none => [])
    ++ (if platform = "of" ∧ (category = "Feed Posts" ∨ category = "Stories")
        then ["Not Uploaded"] else [])

def getOrCreateFolderPath (modelName platform category : String)
    (scriptTitle : Option String) (st : DriveState) :
    DriveState × Except String Nat :=
  resolveSegments (buildFolderPath modelName platform category scriptTitle)
    MAIN_FOLDER_ID st

/- parseFileName, src/server.js lines 334-343: split at the last dot; the
   extension keeps the dot; no dot means empty extension. -/
def parseFileName (filename : String) : String × String :=
  match filename.data.reverse.findIdx? (fun c => c == '.') with
  | none => (filename, "")
  | some i =>
    let cut := filename.data.length - 1 - i
    (⟨filename.data.take cut⟩, ⟨filename.data.drop cut⟩)

/- The files.list existence query of getUniqueFileName, src/server.js lines
   292-295 and 310-313: name and parent match, non-trashed, any mime type. -/
def existsName (st : Store) (folderId : Nat) (name : String) : Bool :=
  st.entries.any (fun e => e.name == name && e.parent == folderId && !e.trashed)

/- The numbered candidate template, src/server.js line 308. -/
def candidateName (stem ext : String) (k : Nat) : String :=
  stem ++ "(" ++ toString k ++ ")" ++ ext

/- The do-while counter loop of getUniqueFileName, src/server.js lines
   307-320: candidates k = 1..99; `.error ()` is a transport failure of the
   collision check (caught by the caller), `.ok none` means every candidate
   up to the bound collided. -/
def tryCounter (st : Store) (folderId : Nat) (stem ext : String) (k : Nat)
    (fs : List (Option String)) : Except Unit (Option String) :=
  if k < 100 then
    if (fs.headD none).isSome then .error ()
    else if existsName st folderId (candidateName stem ext k) then
      tryCounter st folderId stem ext (k + 1) fs.tail
    else .ok (some (candidateName stem ext k))
  else .ok none
termination_by 100 - k

/- getUniqueFileName, src/server.js lines 289-331.  `now` is Date.now() of
   line 323; `fs` scripts the transport failures of the successive list
   calls; any failure is caught by the surrounding try and falls back to the
   original name (lines 326-330). -/
def getUniqueFileName (st : Store) (folderId : Nat) (originalName : String)
    (now : Nat) (fs : List (Option String)) : String :=
  if (fs.headD none).isSome then originalName
  else if existsName st folderId originalName then
    match tryCounter st folderId (parseFileName originalName).1
        (parseFileName originalName).2 1 fs.tail with
    | .error _ => originalName
    | .ok (some cand) => cand
    | .ok none =>
      (parseFileName originalName).1 ++ "_" ++ toString now
        ++ (parseFileName originalName).2
  else originalName

/- One scripted remote acknowledgement of a chunk PUT: its HTTP status and
   the id field of the response body (read only on 200/201). -/
structure ChunkResp where
  status : Nat
  bodyId : String

/- One chunk PUT as issued by the loop: the byte window [start, stop) and
   the Content-Range header of src/server.js line 416. -/
structure ChunkSend where
  start : Nat
  stop : Nat
  contentRange : String
deriving DecidableEq, Repr

def mkContentRange (start stop total : Nat) : String :=
  "bytes " ++ toString start ++ "-" ++ toString (stop - 1) ++ "/" ++ toString total

def sendAt (size chunkSize start : Nat) : ChunkSend :=
  ⟨start, min (start + chunkSize) size,
    mkContentRange start (min (start + chunkSize) size) size⟩

inductive TransferResult where
  | success (fileId : String)
  | chunkError (status : Nat)
  | undefinedReturn
  | stuck
deriving DecidableEq, Repr

/- The chunk-upload while loop of resumableUpload, src/server.js lines
   402-441, returning the trace of chunk PUTs together with how the loop
   ended.  `undefinedReturn` is the loop exiting with uploadedBytes equal to
   file.size, after which the function body ends with no return statement.
   `stuck` is reached only when chunkSize = 0, where the JS loop would spin
   forever; CONFIG.CHUNK_SIZE is positive so it never arises below. -/
def chunkLoop (resp : Nat → ChunkResp) (size chunkSize : Nat)
    (uploaded idx : Nat) : List ChunkSend × TransferResult :=
  if _h : uploaded < size then
    let e := min (uploaded + chunkSize) size
    let send : ChunkSend := ⟨uploaded, e, mkContentRange uploaded e size⟩
    let r := resp idx
    if r.status = 308 then
      if h2 : uploaded < e then
        let rest := chunkLoop resp size chunkSize e (idx + 1)
        (send :: rest.1, rest.2)
      else ([send], .stuck)
    else if r.status = 200 ∨ r.status = 201 then
      ([send], .success r.bodyId)
    else ([send], .chunkError r.status)
  else ([], .undefinedReturn)
termination_by size - uploaded
decreasing_by simp_wf; omega

/- Per-file outcome objects, src/server.js lines 361-368 and 430-437 on
   success, lines 280-284 on failure. -/
inductive Outcome where
  | ok (fileName : String) (originalName : String) (fileId : String)
      (size : Nat) (renamed : Bool)
  | fail (fileName : String) (error : String)
deriving DecidableEq, Repr

def Outcome.success : Outcome → Bool
  | .ok .. => true
  | .fail .. => false

structure IncomingFile where
  originalname : String
  size : Nat
  mimetype : String
deriving DecidableEq, Repr

/- resumableUpload, src/server.js lines 372-447.  `initStatus` is the HTTP
   status of the session-initiation POST (ok means 200-299); a non-ok status
   throws (line 396), a chunk status outside {308, 200, 201} throws (line
   439); both are rethrown by the catch (lines 443-446).  `.ok none` is the
   undefined return of the all-continue run. -/
def resumableUpload (initStatus : Nat) (resp : Nat → ChunkResp)
    (file : IncomingFile) (fileName : String) : Except String (Option Outcome) :=
  if 200 ≤ initStatus ∧ initStatus < 300 then
    match (chunkLoop resp file.size CHUNK_SIZE 0 0).2 with
    | .success fid =>
      .ok (some (.ok fileName file.originalname fid file.size
        (fileName != file.originalname)))
    | .chunkError s => .error ("Chunk upload failed: " ++ toString s)
    | .undefinedReturn => .ok none
    | .stuck => .ok none
  else .error ("Failed to initialize resumable upload: " ++ toString initStatus)

/- simpleUpload, src/server.js lines 346-369: one driveService.files.create
   call whose outcome is scripted (`.ok id` or a thrown error). -/
def simpleUpload (driveCreate : Except String String) (file : IncomingFile)
    (fileName : String) : Except String Outcome :=
  match driveCreate with
  | .ok fid =>
    .ok (.ok fileName file.originalname fid file.size (fileName != file.originalname))
  | .error m => .error m

/- The scripted remote behaviour one file sees during its upload. -/
structure FileEnv where
  store : Store
  nameFailures : List (Option String)
  now : Nat
  simpleResult : Except String String
  initStatus : Nat
  chunkResp : Nat → ChunkResp

/- uploadFileToDrive, src/server.js lines 258-286: unique-name resolution,
   size-based dispatch at 5 MB, and a catch that converts any thrown error
   into a failed outcome carrying the original name. -/
def uploadFileToDrive (env : FileEnv) (file : IncomingFile) (folderId : Nat) :
    Option Outcome :=
  let finalFileName :=
    getUniqueFileName env.store folderId file.originalname env.now env.nameFailures
  if SIMPLE_UPLOAD_THRESHOLD < file.size then
    match resumableUpload env.initStatus env.chunkResp file finalFileName with
    | .ok o => o
    | .error m => some (.fail file.originalname m)
  else
    match simpleUpload env.simpleResult file finalFileName with
    | .ok o => some o
    | .error m => some (.fail file.originalname m)

/- The two filter passes of src/server.js lines 160-161, which read
   r.success of every pushed result: reading the field of an undefined
   result throws a TypeError. -/
def filterResults : List (Option Outcome) → Except String (List Outcome × List Outcome)
  | [] => .ok ([], [])
  | none :: _ => .error "TypeError: Cannot read properties of undefined"
  | some o :: rest =>
    match filterResults rest with
    | .error m => .error m
    | .ok (succ, fails) =>
      if o.success then .ok (o :: succ, fails) else .ok (succ, o :: fails)

inductive BatchResponse where
  | validationError (status : Nat) (error : String)
  | serverError (error : String)
  | done (success : Bool) (results : List (Option Outcome))
      (total successCount failCount : Nat) (message : String)
deriving DecidableEq, Repr

/- The /api/upload handler, src/server.js lines 115-181: folder-id and
   non-empty checks, the aggregate size limit, the sequential per-file loop
   (whose catch never fires because uploadFileToDrive catches internally),
   the success/failed filters, and the response; an error thrown after the
   loop is caught at line 177 and becomes a 500 response. -/
def uploadBatch (folderId : Option Nat)
    (files : List (IncomingFile × FileEnv)) : BatchResponse :=
  match folderId with
  | none => .validationError 400 "Target folder ID required"
  | some fid =>
    if files.isEmpty then .validationError 400 "No files provided"
    else
      let totalSize := (files.map (fun p => p.1.size)).sum
      if MAX_TOTAL_SIZE < totalSize then
        .validationError 400 "Total upload size exceeds limit"
      else
        let results := files.map (fun p => uploadFileToDrive p.2 p.1 fid)
        match filterResults results with
        | .error m => .serverError m
        | .ok (succ, fails) =>
          .done fails.isEmpty results results.length succ.length fails.length
            (if fails.isEmpty then "All files uploaded successfully"
             else "Some files failed")

/- Ceiling division, used to state the chunk-count property. -/
def ceilDiv (a b : Nat) : Nat := (a + b - 1) / b

/- The chain of folders created when resolving a path with nothing present:
   one folder per segment, each parented on the previous one. -/
def chainEntries : List String → Nat → Nat → List Entry
  | [], _, _ => []
  | s :: rest, parent, n => ⟨n, s, parent, true, false⟩ :: chainEntries rest n (n + 1)

def chainLast : List String → Nat → Nat → Nat
  | [], current, _ => current
  | _ :: rest, _, n => chainLast rest n (n + 1)


/- Classification of the response to the chunk PUT that ends the loop. -/
def finalOf (r : ChunkResp) : TransferResult :=
  if r.status = 308 then .undefinedReturn
  else if r.status = 200 ∨ r.status = 201 then .success r.bodyId
  else .chunkError r.status

/- A concrete chunk-response script: one continue, then complete. -/
def respContinueThenComplete : Nat → ChunkResp :=
  fun i => if i = 0 then ⟨308, ""⟩ else ⟨200, "remote-file-id"⟩

/- A concrete chunk-response script answering continue to every chunk. -/
def respAllContinue : Nat → ChunkResp := fun _ => ⟨308, ""⟩

/- A concrete per-file environment whose simple upload succeeds. -/
def envOkSimple : FileEnv :=
  ⟨⟨[], 0⟩, [], 0, .ok "fid-1", 200, respAllContinue⟩

/- A concrete per-file environment whose first chunk send returns 500. -/
def envFatalChunk : FileEnv :=
  ⟨⟨[], 0⟩, [], 0, .ok "x", 200, fun _ => ⟨500, ""⟩⟩

/- A concrete per-file environment answering 308 to every chunk send. -/
def envAllContinue : FileEnv :=
  ⟨⟨[], 0⟩, [], 0, .ok "x", 200, respAllContinue⟩

/- A concrete store: folder 7 already contains report.pdf. -/
def storeReport : Store := ⟨[⟨1, "report.pdf", 7, false, false⟩], 2⟩

/-
  ===================  General lemmas about the embedding  ===================
-/

theorem chunkLoop_stop (resp : Nat → ChunkResp) (size C uploaded idx : Nat)
    (h : ¬ uploaded < size) :
    chunkLoop resp size C uploaded idx = ([], .undefinedReturn) := by
  rw [chunkLoop]
  simp [h]

theorem sendAt_shift (size C uploaded : Nat) (n : Nat) :
    (List.range (n + 1)).map (fun k => sendAt size C (uploaded + k * C)) =
      sendAt size C uploaded
        :: (List.range n).map (fun k => sendAt size C (uploaded + C + k * C)) := by
  rw [List.range_succ_eq_map]
  simp only [List.map_cons, List.map_map, Function.comp, Nat.zero_mul, Nat.add_zero]
  congr 1
  apply List.map_congr_left
  intro k _hk
  simp only [Function.comp_apply]
  congr 1
  rw [Nat.succ_mul]
  omega

/- The chunk loop on a script that answers continue to the first m chunks:
   it performs exactly m + 1 sends, each window advancing by the chunk size,
   and ends according to the response to chunk m. -/
theorem chunkLoop_run (resp : Nat → ChunkResp) (size C : Nat) (hC : 0 < C) :
    ∀ (m uploaded idx : Nat), uploaded + m * C < size → size ≤ uploaded + (m + 1) * C →
    (∀ i, i < m → (resp (idx + i)).status = 308) →
    chunkLoop resp size C uploaded idx =
      ((List.range (m + 1)).map (fun k => sendAt size C (uploaded + k * C)),
        finalOf (resp (idx + m))) := by
  intro m
  induction m with
  | zero =>
    intro uploaded idx h1 h2 _h3
    have hu : uploaded < size := by omega
    rw [chunkLoop]
    rw [dif_pos hu]
    simp only [List.range_succ_eq_map, List.range_zero, List.map_nil, List.map_cons,
      Nat.add_zero, Nat.zero_mul]
    by_cases h308 : (resp idx).status = 308
    · rw [if_pos h308]
      rw [dif_pos (by omega : uploaded < min (uploaded + C) size)]
      rw [chunkLoop_stop resp size C (min (uploaded + C) size) (idx + 1) (by omega)]
      simp [sendAt, finalOf, h308]
    · rw [if_neg h308]
      by_cases hok : (resp idx).status = 200 ∨ (resp idx).status = 201
      · rw [if_pos hok]
        simp [sendAt, finalOf, h308, hok]
      · rw [if_neg hok]
        simp [sendAt, finalOf, h308, hok]
  | succ n ih =>
    intro uploaded idx h1 h2 h3
    have e1 : (n + 1) * C = n * C + C := by ring
    have e2 : (n + 1 + 1) * C = n * C + C + C := by ring
    rw [e1] at h1
    rw [e2] at h2
    have hu : uploaded < size := by omega
    have he : min (uploaded + C) size = uploaded + C := by omega
    have h308 : (resp idx).status = 308 := by
      have := h3 0 (Nat.succ_pos n)
      simpa using this
    rw [chunkLoop]
    rw [dif_pos hu]
    rw [if_pos h308]
    rw [dif_pos (by omega : uploaded < min (uploaded + C) size)]
    rw [he]
    rw [ih (uploaded + C) (idx + 1) (by omega)
      (by rw [e1]; omega)
      (fun i hi => by
        have := h3 (i + 1) (by omega)
        have hsh : idx + 1 + i = idx + (i + 1) := by omega
        rw [hsh]
        exact this)]
    rw [sendAt_shift size C uploaded (n + 1)]
    simp only [Prod.mk.injEq]
    refine ⟨?_, ?_⟩
    · congr 1
      simp [sendAt, he]
    · have hx : idx + 1 + n = idx + (n + 1) := by omega
      rw [hx]

theorem ceilDiv_eq (S C m : Nat) (hC : 0 < C) (h1 : m * C < S) (h2 : S ≤ (m + 1) * C) :
    ceilDiv S C = m + 1 := by
  unfold ceilDiv
  have e1 : (m + 1) * C = m * C + C := by ring
  have e2 : (m + 2) * C = m * C + C + C := by ring
  have hup : (S + C - 1) / C < m + 2 := by
    rw [Nat.div_lt_iff_lt_mul hC]
    rw [e2]
    omega
  have hlo : m + 1 ≤ (S + C - 1) / C := by
    rw [Nat.le_div_iff_mul_le hC]
    rw [e1]
    omega
  omega

theorem ceilDiv_bounds (S C : Nat) (hS : 0 < S) (hC : 0 < C) :
    (ceilDiv S C - 1) * C < S ∧ S ≤ ceilDiv S C * C := by
  have hq1 : 1 ≤ ceilDiv S C := by
    unfold ceilDiv
    rw [Nat.le_div_iff_mul_le hC]
    omega
  have h1 : ceilDiv S C * C ≤ S + C - 1 := Nat.div_mul_le_self _ _
  have h2 : S + C - 1 < (ceilDiv S C + 1) * C :=
    (Nat.div_lt_iff_lt_mul hC).mp (Nat.lt_succ_self _)
  have e1 : (ceilDiv S C + 1) * C = ceilDiv S C * C + C := by ring
  have e2 : (ceilDiv S C - 1) * C = ceilDiv S C * C - 1 * C := Nat.sub_mul _ _ _
  rw [e1] at h2
  constructor
  · rw [e2]
    omega
  · omega


theorem ceilDiv_pos (S C : Nat) (hS : 0 < S) (hC : 0 < C) : 1 ≤ ceilDiv S C := by
  unfold ceilDiv
  rw [Nat.le_div_iff_mul_le hC]
  omega

/-
  ===========================  Claim C2  ===========================
-/

/-- C2: for a payload of size S above the resumable threshold, with chunk
size C, when every chunk send is acknowledged with 308 except the last,
which returns 200 or 201, the loop issues exactly ceil(S/C) chunk sends
(m + 1 sends where m is forced to equal ceil(S/C) - 1 by the window
bounds), and returns a success result carrying the remote file identifier
of the completing response; lifted through resumableUpload when C is the
configured CHUNK_SIZE, this is a success outcome with that identifier. -/
theorem chunked_transfer_send_count (S C m : Nat) (resp : Nat → ChunkResp)
    (hC : 0 < C) (_hS : SIMPLE_UPLOAD_THRESHOLD < S)
    (h1 : m * C < S) (h2 : S ≤ (m + 1) * C)
    (hcont : ∀ i, i < m → (resp i).status = 308)
    (hlast : (resp m).status = 200 ∨ (resp m).status = 201) :
    (chunkLoop resp S C 0 0).1.length = ceilDiv S C
    ∧ ceilDiv S C = m + 1
    ∧ (chunkLoop resp S C 0 0).2 = .success (resp m).bodyId
    ∧ (∀ (file : IncomingFile) (fn : String) (iS : Nat),
        file.size = S → C = CHUNK_SIZE → 200 ≤ iS → iS < 300 →
        resumableUpload iS resp file fn =
          .ok (some (.ok fn file.originalname (resp m).bodyId file.size
            (fn != file.originalname)))) := by
  have hrun := chunkLoop_run resp S C hC m 0 0 (by omega) (by omega)
    (fun i hi => by rw [Nat.zero_add]; exact hcont i hi)
  have hceil : ceilDiv S C = m + 1 := ceilDiv_eq S C m hC h1 h2
  have hfin : finalOf (resp m) = .success (resp m).bodyId := by
    unfold finalOf
    rcases hlast with h | h
    · rw [h]
      norm_num
    · rw [h]
      norm_num
  refine ⟨?_, hceil, ?_, ?_⟩
  · rw [hrun, hceil]
    simp
  · rw [hrun]
    simp only []
    rw [Nat.zero_add]
    exact hfin
  · intro file fn iS hsz hCC hi1 hi2
    unfold resumableUpload
    rw [if_pos ⟨hi1, hi2⟩]
    rw [hsz, ← hCC]
    rw [hrun]
    simp only []
    rw [Nat.zero_add]
    rw [hfin]

/-- Witness for C2 at S = 6 MiB, C = 4 MiB: two sends, success. -/
theorem chunked_transfer_send_count_witness :
    (chunkLoop respContinueThenComplete (6 * 1024 * 1024) (4 * 1024 * 1024) 0 0).1.length = 2
    ∧ (chunkLoop respContinueThenComplete (6 * 1024 * 1024) (4 * 1024 * 1024) 0 0).2 =
        .success "remote-file-id" := by
  have h := chunked_transfer_send_count (6 * 1024 * 1024) (4 * 1024 * 1024) 1
    respContinueThenComplete (by norm_num) (by norm_num [SIMPLE_UPLOAD_THRESHOLD])
    (by norm_num) (by norm_num)
    (by
      intro i hi
      interval_cases i
      rfl)
    (by left; rfl)
  refine ⟨?_, ?_⟩
  · have h1 := h.1
    rw [h.2.1] at h1
    exact h1
  · have h3 := h.2.2.1
    simpa using h3

/-
  ===========================  Claim C10  ===========================
-/

/-- C10: in a run of the chunked path in which every chunk before the final
window is acknowledged with continue (as in any run that actually transfers
the whole payload), the windows sent exactly partition [0, S): the trace has
exactly ceil(S/C) sends; window k is [k*C, min((k+1)*C, S)), so the first
window starts at 0 and each window starts where the previous one stopped;
every window before the last stops at exactly start + C, and the last stops
at exactly S; each Content-Range header carries the window start, the
inclusive end stop - 1, and the total size S. -/
theorem chunk_windows_partition (S C : Nat) (resp : Nat → ChunkResp)
    (hS : 0 < S) (hC : 0 < C)
    (hcont : ∀ i, i + 1 < ceilDiv S C → (resp i).status = 308) :
    (chunkLoop resp S C 0 0).1.length = ceilDiv S C
    ∧ (chunkLoop resp S C 0 0).1 =
        (List.range (ceilDiv S C)).map (fun k =>
          ⟨k * C, min ((k + 1) * C) S,
            mkContentRange (k * C) (min ((k + 1) * C) S) S⟩)
    ∧ (∀ k, k + 1 < ceilDiv S C → min ((k + 1) * C) S = (k + 1) * C)
    ∧ min (ceilDiv S C * C) S = S := by
  have hpos := ceilDiv_pos S C hS hC
  have hbounds := ceilDiv_bounds S C hS hC
  have hm1 : ceilDiv S C - 1 + 1 = ceilDiv S C := by omega
  have hrun := chunkLoop_run resp S C hC (ceilDiv S C - 1) 0 0
    (by have := hbounds.1; omega)
    (by rw [hm1]; have := hbounds.2; omega)
    (fun i hi => by
      rw [Nat.zero_add]
      exact hcont i (by omega))
  rw [hm1] at hrun
  have htr : (chunkLoop resp S C 0 0).1 =
      (List.range (ceilDiv S C)).map (fun k =>
        ⟨k * C, min ((k + 1) * C) S,
          mkContentRange (k * C) (min ((k + 1) * C) S) S⟩) := by
    rw [hrun]
    simp only []
    apply List.map_congr_left
    intro k _hk
    have e1 : 0 + k * C = k * C := by omega
    have e2 : k * C + C = (k + 1) * C := by ring
    simp [sendAt, e1, e2]
  refine ⟨?_, htr, ?_, ?_⟩
  · rw [htr]
    simp
  · intro k hk
    have hkc : (k + 1) * C ≤ (ceilDiv S C - 1) * C :=
      Nat.mul_le_mul_right C (by omega)
    have := hbounds.1
    omega
  · have := hbounds.2
    omega

/-- Witness for C10 at S = 10, C = 4: three windows covering [0, 10). -/
theorem chunk_windows_partition_witness :
    (chunkLoop respAllContinue 10 4 0 0).1.length = ceilDiv 10 4
    ∧ min (ceilDiv 10 4 * 4) 10 = 10 := by
  have h := chunk_windows_partition 10 4 respAllContinue (by norm_num) (by norm_num)
    (fun i _ => rfl)
  exact ⟨h.1, h.2.2.2⟩


/-
  ===========================  Claim C9  ===========================
-/

/-- Shared analysis of an all-continue resumable run: resumableUpload falls
off its loop and returns undefined, uploadFileToDrive passes the undefined
through, and the batch driver throws a TypeError while filtering. -/
theorem batch_allContinue_crashes (file : IncomingFile) (env : FileEnv)
    (fid : Nat)
    (hsz : SIMPLE_UPLOAD_THRESHOLD < file.size) (hmax : file.size ≤ MAX_TOTAL_SIZE)
    (hi1 : 200 ≤ env.initStatus) (hi2 : env.initStatus < 300)
    (hcont : ∀ i, (env.chunkResp i).status = 308) :
    (∀ fn, resumableUpload env.initStatus env.chunkResp file fn = .ok none)
    ∧ uploadFileToDrive env file fid = none
    ∧ uploadBatch (some fid) [(file, env)] =
        .serverError "TypeError: Cannot read properties of undefined" := by
  have hS : 0 < file.size := lt_of_le_of_lt (Nat.zero_le _) hsz
  have hCpos : 0 < CHUNK_SIZE := by norm_num [CHUNK_SIZE]
  have hpos := ceilDiv_pos file.size CHUNK_SIZE hS hCpos
  have hbounds := ceilDiv_bounds file.size CHUNK_SIZE hS hCpos
  have hm1 : ceilDiv file.size CHUNK_SIZE - 1 + 1 = ceilDiv file.size CHUNK_SIZE := by
    omega
  have hrun := chunkLoop_run env.chunkResp file.size CHUNK_SIZE hCpos
    (ceilDiv file.size CHUNK_SIZE - 1) 0 0
    (by have := hbounds.1; omega)
    (by rw [hm1]; have := hbounds.2; omega)
    (fun i _ => by rw [Nat.zero_add]; exact hcont i)
  have hres : (chunkLoop env.chunkResp file.size CHUNK_SIZE 0 0).2 = .undefinedReturn := by
    rw [hrun]
    simp only []
    unfold finalOf
    rw [hcont _]
    norm_num
  have hru : ∀ fn, resumableUpload env.initStatus env.chunkResp file fn = .ok none := by
    intro fn
    unfold resumableUpload
    rw [if_pos ⟨hi1, hi2⟩]
    rw [hres]
  have hup : uploadFileToDrive env file fid = none := by
    unfold uploadFileToDrive
    rw [if_pos hsz]
    rw [hru]
  refine ⟨hru, hup, ?_⟩
  unfold uploadBatch
  simp only [List.isEmpty_cons, Bool.false_eq_true, if_false, List.map_cons,
    List.map_nil, List.sum_cons, List.sum_nil]
  rw [if_neg (by omega : ¬ MAX_TOTAL_SIZE < file.size + 0)]
  rw [hup]
  rfl

/-- C9 counterexample: a concrete run in which every chunk send (including
the final one covering the last byte) is acknowledged 308.  resumableUpload
returns undefined, yet the batch driver does NOT record that entry as a
failed outcome: reading the success field of the undefined entry while
filtering throws, and the whole request ends as a batch-level 500 server
error with no results list, contradicting the claim that the entry is
recorded as failed with no file name or error description. -/
theorem resumable_all_continue_counterexample :
    uploadBatch (some 0) [(⟨"big.bin", 6 * 1024 * 1024, "bin"⟩, envAllContinue)] =
      .serverError "TypeError: Cannot read properties of undefined" :=
  (batch_allContinue_crashes ⟨"big.bin", 6 * 1024 * 1024, "bin"⟩ envAllContinue 0
    (by norm_num [SIMPLE_UPLOAD_THRESHOLD]) (by norm_num [MAX_TOTAL_SIZE])
    (by decide) (by decide) (fun i => rfl)).2.2

/-- C9 (amended): when every chunk send of a resumable transfer is
acknowledged with 308, including the final one covering the last byte, the
loop exits with bytes-sent equal to the total size and resumableUpload
returns no outcome at all (undefined, modelled as `.ok none`) — neither a
success outcome nor a raised error — so uploadFileToDrive yields undefined;
the batch driver then crashes while aggregating, because reading the
success field of the undefined entry throws a TypeError, and the whole
request becomes a batch-level 500 server error (it does not record the
entry as a failed outcome). -/
theorem resumable_all_continue_undefined (file : IncomingFile) (env : FileEnv)
    (fid : Nat)
    (hsz : SIMPLE_UPLOAD_THRESHOLD < file.size) (hmax : file.size ≤ MAX_TOTAL_SIZE)
    (hi1 : 200 ≤ env.initStatus) (hi2 : env.initStatus < 300)
    (hcont : ∀ i, (env.chunkResp i).status = 308) :
    (∀ fn, resumableUpload env.initStatus env.chunkResp file fn = .ok none)
    ∧ uploadFileToDrive env file fid = none
    ∧ uploadBatch (some fid) [(file, env)] =
        .serverError "TypeError: Cannot read properties of undefined" :=
  batch_allContinue_crashes file env fid hsz hmax hi1 hi2 hcont

/-- Witness for the amended C9 at a concrete 6 MiB file. -/
theorem resumable_all_continue_undefined_witness :
    resumableUpload 200 respAllContinue ⟨"big.bin", 6 * 1024 * 1024, "bin"⟩ "big.bin" =
      .ok none
    ∧ uploadFileToDrive envAllContinue ⟨"big.bin", 6 * 1024 * 1024, "bin"⟩ 0 = none := by
  have h := resumable_all_continue_undefined ⟨"big.bin", 6 * 1024 * 1024, "bin"⟩
    envAllContinue 0
    (by norm_num [SIMPLE_UPLOAD_THRESHOLD]) (by norm_num [MAX_TOTAL_SIZE])
    (by decide) (by decide) (fun i => rfl)
  exact ⟨h.1 "big.bin", h.2.1⟩

/-
  ===========================  Claim C3  ===========================
-/

/-- C3: files at or below the fixed 5 MB threshold always take the one-shot
simple path — the result does not depend on the resumable-session oracles
(no session is ever initiated) and equals the simple-upload composition,
always yielding an outcome (never undefined); files strictly above the
threshold always take the resumable path — the result does not depend on
the simple-upload oracle and equals the resumableUpload composition.  Both
paths produce outcomes of the same Outcome shape. -/
theorem upload_dispatch_by_threshold (env : FileEnv) (file : IncomingFile) (fid : Nat) :
    (file.size ≤ SIMPLE_UPLOAD_THRESHOLD →
      (∀ (i : Nat) (cr : Nat → ChunkResp),
        uploadFileToDrive { env with initStatus := i, chunkResp := cr } file fid =
          uploadFileToDrive env file fid)
      ∧ uploadFileToDrive env file fid =
          (match simpleUpload env.simpleResult file
              (getUniqueFileName env.store fid file.originalname env.now env.nameFailures) with
           | .ok o => some o
           | .error m => some (.fail file.originalname m))
      ∧ (∃ o, uploadFileToDrive env file fid = some o))
    ∧ (SIMPLE_UPLOAD_THRESHOLD < file.size →
      (∀ sr, uploadFileToDrive { env with simpleResult := sr } file fid =
          uploadFileToDrive env file fid)
      ∧ uploadFileToDrive env file fid =
          (match resumableUpload env.initStatus env.chunkResp file
              (getUniqueFileName env.store fid file.originalname env.now env.nameFailures) with
           | .ok o => o
           | .error m => some (.fail file.originalname m))) := by
  constructor
  · intro hle
    have hnot : ¬ SIMPLE_UPLOAD_THRESHOLD < file.size := by omega
    refine ⟨?_, ?_, ?_⟩
    · intro i cr
      unfold uploadFileToDrive
      simp only [if_neg hnot]
    · unfold uploadFileToDrive
      simp only [if_neg hnot]
    · unfold uploadFileToDrive
      simp only [if_neg hnot]
      cases henv : env.simpleResult with
      | error m => exact ⟨.fail file.originalname m, by simp [simpleUpload, henv]⟩
      | ok fid2 =>
        exact ⟨.ok (getUniqueFileName env.store fid file.originalname env.now
          env.nameFailures) file.originalname fid2 file.size
          ((getUniqueFileName env.store fid file.originalname env.now
            env.nameFailures) != file.originalname), by simp [simpleUpload, henv]⟩
  · intro hgt
    refine ⟨?_, ?_⟩
    · intro sr
      unfold uploadFileToDrive
      simp only [if_pos hgt]
    · unfold uploadFileToDrive
      simp only [if_pos hgt]

/-- Witness for C3: a 10-byte file takes the simple path and yields a
simple-upload outcome. -/
theorem upload_dispatch_by_threshold_witness :
    uploadFileToDrive envOkSimple ⟨"a.txt", 10, "text"⟩ 5 =
      some (.ok "a.txt" "a.txt" "fid-1" 10 false) := by
  have h := ((upload_dispatch_by_threshold envOkSimple ⟨"a.txt", 10, "text"⟩ 5).1
    (by norm_num [SIMPLE_UPLOAD_THRESHOLD])).2.1
  rw [h]
  simp +decide [simpleUpload, getUniqueFileName, existsName, envOkSimple]

/-
  ===========================  Claim C6  ===========================
-/

/-- C6: a missing target folder id, an empty file set, or an aggregate
declared size above MAX_TOTAL_SIZE each fail the whole batch with a single
batch-level 400 validation failure whose response carries no per-file
outcomes; the rejection is decided before any per-file transfer (the
validation responses do not depend on any per-file oracle). -/
theorem batch_validation_rejects (files : List (IncomingFile × FileEnv)) (fid : Nat) :
    uploadBatch none files = .validationError 400 "Target folder ID required"
    ∧ uploadBatch (some fid) [] = .validationError 400 "No files provided"
    ∧ (MAX_TOTAL_SIZE < (files.map (fun p => p.1.size)).sum →
        uploadBatch (some fid) files =
          .validationError 400 "Total upload size exceeds limit") := by
  refine ⟨rfl, rfl, ?_⟩
  intro hover
  cases files with
  | nil => simp [MAX_TOTAL_SIZE] at hover
  | cons p rest =>
    unfold uploadBatch
    simp only [List.isEmpty_cons, Bool.false_eq_true, if_false]
    rw [if_pos hover]

/-- Witness for C6: a single 6 GiB file is rejected by the size limit. -/
theorem batch_validation_rejects_witness :
    uploadBatch (some 0) [(⟨"huge.bin", 6 * 1024 * 1024 * 1024, "bin"⟩, envOkSimple)] =
      .validationError 400 "Total upload size exceeds limit" := by
  exact (batch_validation_rejects
    [(⟨"huge.bin", 6 * 1024 * 1024 * 1024, "bin"⟩, envOkSimple)] 0).2.2 (by decide)

/-
  ===========================  Claim C7  ===========================
-/

/-- C7: the name disambiguator fails open. If the initial existence check
suffers a transport failure, or any numbered-candidate collision check
does, getUniqueFileName returns the original desired name instead of
propagating the error (its total type shows no error escapes, so the
upload of the file proceeds with that name). -/
theorem unique_name_fails_open (st : Store) (fid : Nat) (name : String)
    (now : Nat) (fs : List (Option String)) :
    ((fs.headD none).isSome = true → getUniqueFileName st fid name now fs = name)
    ∧ (tryCounter st fid (parseFileName name).1 (parseFileName name).2 1 fs.tail =
        .error () → getUniqueFileName st fid name now fs = name) := by
  constructor
  · intro h
    unfold getUniqueFileName
    rw [if_pos h]
  · intro h
    unfold getUniqueFileName
    by_cases h0 : (fs.headD none).isSome = true
    · rw [if_pos h0]
    · rw [if_neg h0]
      by_cases he : existsName st fid name = true
      · rw [if_pos he, h]
      · rw [if_neg he]

/-- Witness for C7: a scripted transport failure on the first check leaves
the name unchanged even though the folder contains a colliding entry. -/
theorem unique_name_fails_open_witness :
    getUniqueFileName storeReport 7 "report.pdf" 0 [some "transport down"] =
      "report.pdf" := by
  exact (unique_name_fails_open storeReport 7 "report.pdf" 0
    [some "transport down"]).1 rfl


/-
  ===========================  Claim C4  ===========================
-/

/-- The counter loop, entered at counter k with no transport failures,
returns the first collision-free candidate k + n when every candidate
before it collides. -/
theorem tryCounter_found (st : Store) (fid : Nat) (stem ext : String) :
    ∀ (n k : Nat), 1 ≤ k → k + n ≤ 99 →
    (∀ j, k ≤ j → j < k + n → existsName st fid (candidateName stem ext j) = true) →
    existsName st fid (candidateName stem ext (k + n)) = false →
    tryCounter st fid stem ext k [] = .ok (some (candidateName stem ext (k + n))) := by
  intro n
  induction n with
  | zero =>
    intro k _hk1 hk99 _hcoll hfree
    rw [tryCounter]
    rw [if_pos (by omega : k < 100)]
    rw [if_neg (by simp : ¬ ((([] : List (Option String)).headD none).isSome = true))]
    rw [Nat.add_zero] at hfree
    rw [if_neg (by simp [hfree])]
    rw [Nat.add_zero]
  | succ n ih =>
    intro k hk1 hk99 hcoll hfree
    rw [tryCounter]
    rw [if_pos (by omega : k < 100)]
    rw [if_neg (by simp : ¬ ((([] : List (Option String)).headD none).isSome = true))]
    rw [if_pos (hcoll k (le_refl k) (by omega))]
    have htail : ([] : List (Option String)).tail = [] := rfl
    rw [htail]
    have he : k + 1 + n = k + (n + 1) := by omega
    have hgoal := ih (k + 1) (by omega) (by omega)
      (fun j hj1 hj2 => hcoll j (by omega) (by omega))
      (by rw [he]; exact hfree)
    rw [he] at hgoal
    exact hgoal

/-- The counter loop, entered at counter k with no transport failures,
returns none (exhaustion) when every candidate up to 99 collides. -/
theorem tryCounter_exhausted (st : Store) (fid : Nat) (stem ext : String) :
    ∀ (n k : Nat), k + n = 100 → 1 ≤ k →
    (∀ j, k ≤ j → j ≤ 99 → existsName st fid (candidateName stem ext j) = true) →
    tryCounter st fid stem ext k [] = .ok none := by
  intro n
  induction n with
  | zero =>
    intro k hk100 _ _
    rw [tryCounter]
    rw [if_neg (by omega : ¬ k < 100)]
  | succ n ih =>
    intro k hk100 hk1 hcoll
    rw [tryCounter]
    rw [if_pos (by omega : k < 100)]
    rw [if_neg (by simp : ¬ ((([] : List (Option String)).headD none).isSome = true))]
    rw [if_pos (hcoll k (le_refl k) (by omega))]
    have htail : ([] : List (Option String)).tail = [] := rfl
    rw [htail]
    exact ih (k + 1) (by omega) (by omega) (fun j hj1 hj2 => hcoll j (by omega) hj2)

/-- C4: with the desired name split into (stem, extension) at the last dot
(no dot giving an empty extension, per parseFileName), and no transport
failures: if no entry with the desired name exists in the folder the name
is returned unchanged; otherwise the first candidate stem(k)extension for
k = 1, 2, ... up to the bound 99 with no collision is returned; if all 99
candidates collide, the fallback stem_timestamp-extension name is returned
with no further uniqueness check. -/
theorem unique_name_policy (st : Store) (fid : Nat) (name : String) (now : Nat) :
    (existsName st fid name = false → getUniqueFileName st fid name now [] = name)
    ∧ (∀ k0, 1 ≤ k0 → k0 ≤ 99 → existsName st fid name = true →
        (∀ j, 1 ≤ j → j < k0 → existsName st fid
          (candidateName (parseFileName name).1 (parseFileName name).2 j) = true) →
        existsName st fid
          (candidateName (parseFileName name).1 (parseFileName name).2 k0) = false →
        getUniqueFileName st fid name now [] =
          candidateName (parseFileName name).1 (parseFileName name).2 k0)
    ∧ (existsName st fid name = true →
        (∀ j, 1 ≤ j → j ≤ 99 → existsName st fid
          (candidateName (parseFileName name).1 (parseFileName name).2 j) = true) →
        getUniqueFileName st fid name now [] =
          (parseFileName name).1 ++ "_" ++ toString now ++ (parseFileName name).2) := by
  have hhead : ¬ ((([] : List (Option String)).headD none).isSome = true) := by simp
  have htail : ([] : List (Option String)).tail = [] := rfl
  refine ⟨?_, ?_, ?_⟩
  · intro h
    unfold getUniqueFileName
    rw [if_neg hhead]
    rw [if_neg (by simp [h])]
  · intro k0 hk1 hk99 hex hcoll hfree
    unfold getUniqueFileName
    rw [if_neg hhead]
    rw [if_pos hex]
    rw [htail]
    have he : 1 + (k0 - 1) = k0 := by omega
    have hfound := tryCounter_found st fid (parseFileName name).1 (parseFileName name).2
      (k0 - 1) 1 (le_refl 1) (by omega)
      (fun j hj1 hj2 => hcoll j hj1 (by omega))
      (by rw [he]; exact hfree)
    rw [he] at hfound
    rw [hfound]
  · intro hex hcoll
    unfold getUniqueFileName
    rw [if_neg hhead]
    rw [if_pos hex]
    rw [htail]
    rw [tryCounter_exhausted st fid (parseFileName name).1 (parseFileName name).2
      99 1 (by omega) (le_refl 1) (fun j hj1 hj2 => hcoll j hj1 hj2)]

/-- Witness for C4: a folder containing report.pdf yields report(1).pdf. -/
theorem unique_name_policy_witness :
    getUniqueFileName storeReport 7 "report.pdf" 0 [] = "report(1).pdf" := by
  have h := (unique_name_policy storeReport 7 "report.pdf" 0).2.1 1 (le_refl 1)
    (by norm_num) (by decide)
    (by intro j hj1 hj2; omega)
    (by decide)
  rw [h]
  decide


/-
  ===========================  Claims C5 and C8  ===========================
-/

/-- Entries whose matching folders are excluded by the parent condition are
never returned by the folder query. -/
theorem entryMatch_false (entries : List Entry) (current : Nat) (s : String)
    (segs : List String) (hs : s ∈ segs)
    (hname : ∀ e ∈ entries, e.isFolder = true → e.trashed = false →
      e.name ∈ segs → e.parent ≠ current) :
    entries.find? (folderQuery s current) = none := by
  rw [List.find?_eq_none]
  intro e he hp
  simp only [folderQuery, Bool.and_eq_true, beq_iff_eq, Bool.not_eq_true'] at hp
  obtain ⟨⟨⟨h1, h2⟩, h3⟩, h4⟩ := hp
  exact hname e he h3 h4 (by rw [h1]; exact hs) h2

/-- Resolving a path against a store containing no folder of the path
creates the chain of folders, one per segment in order, and returns the
identifier of the last created folder. -/
theorem resolveSegments_creates :
    ∀ (segs : List String) (current : Nat) (entries : List Entry) (n0 : Nat),
    (∀ e ∈ entries, e.id < n0 ∧ e.parent < n0) →
    current < n0 →
    (∀ e ∈ entries, e.isFolder = true → e.trashed = false →
      e.name ∈ segs → e.parent ≠ current) →
    resolveSegments segs current ⟨⟨entries, n0⟩, []⟩ =
      (⟨⟨entries ++ chainEntries segs current n0, n0 + segs.length⟩, []⟩,
        .ok (chainLast segs current n0)) := by
  intro segs
  induction segs with
  | nil =>
    intro current entries n0 _ _ _
    simp [resolveSegments, chainEntries, chainLast]
  | cons s rest ih =>
    intro current entries n0 hfresh hcur hname
    have hnone := entryMatch_false entries current s (s :: rest)
      (List.mem_cons_self s rest) hname
    have hfound : findFolder ⟨⟨entries, n0⟩, []⟩ current s =
        (none, ⟨⟨entries, n0⟩, []⟩) := by
      unfold findFolder popFailure
      simp only [List.headD_nil, List.tail_nil]
      rw [hnone]
    have hcreate : createFolder s current ⟨⟨entries, n0⟩, []⟩ =
        (⟨⟨entries ++ [⟨n0, s, current, true, false⟩], n0 + 1⟩, []⟩,
          .ok ⟨n0, s, current, true, false⟩) := rfl
    have hfresh2 : ∀ e ∈ entries ++ [(⟨n0, s, current, true, false⟩ : Entry)],
        e.id < n0 + 1 ∧ e.parent < n0 + 1 := by
      intro e he
      rcases List.mem_append.mp he with h | h
      · have := hfresh e h
        omega
      · simp only [List.mem_singleton] at h
        subst h
        refine ⟨?_, ?_⟩
        · show n0 < n0 + 1
          omega
        · show current < n0 + 1
          omega
    have hname2 : ∀ e ∈ entries ++ [(⟨n0, s, current, true, false⟩ : Entry)],
        e.isFolder = true → e.trashed = false → e.name ∈ rest → e.parent ≠ n0 := by
      intro e he _ _ _
      rcases List.mem_append.mp he with h | h
      · have := (hfresh e h).2
        omega
      · simp only [List.mem_singleton] at h
        subst h
        show current ≠ n0
        omega
    simp only [resolveSegments]
    rw [hfound]
    simp only []
    rw [hcreate]
    simp only []
    rw [ih n0 (entries ++ [(⟨n0, s, current, true, false⟩ : Entry)]) (n0 + 1) hfresh2
      (by omega) hname2]
    have h1 : entries ++ [(⟨n0, s, current, true, false⟩ : Entry)]
        ++ chainEntries rest n0 (n0 + 1) =
        entries ++ chainEntries (s :: rest) current n0 := by
      rw [List.append_assoc]
      rfl
    have h2 : n0 + 1 + rest.length = n0 + (s :: rest).length := by
      simp only [List.length_cons]
      omega
    rw [h1, h2]
    rfl

/-- Re-resolving a path whose chain of folders is already present finds
each folder in turn, creates nothing, and returns the same identifier. -/
theorem resolveSegments_finds :
    ∀ (segs : List String) (current : Nat) (base : List Entry) (n0 M : Nat),
    (∀ e ∈ base, e.id < n0 ∧ e.parent < n0) →
    current < n0 →
    (∀ e ∈ base, e.isFolder = true → e.trashed = false →
      e.name ∈ segs → e.parent ≠ current) →
    resolveSegments segs current ⟨⟨base ++ chainEntries segs current n0, M⟩, []⟩ =
      (⟨⟨base ++ chainEntries segs current n0, M⟩, []⟩,
        .ok (chainLast segs current n0)) := by
  intro segs
  induction segs with
  | nil =>
    intro current base n0 M _ _ _
    simp [resolveSegments, chainEntries, chainLast]
  | cons s rest ih =>
    intro current base n0 M hfresh hcur hname
    have hnone := entryMatch_false base current s (s :: rest)
      (List.mem_cons_self s rest) hname
    have hpred : folderQuery s current ⟨n0, s, current, true, false⟩ = true := by
      simp [folderQuery]
    have hfound : findFolder ⟨⟨base ++ chainEntries (s :: rest) current n0, M⟩, []⟩
        current s =
        (some ⟨n0, s, current, true, false⟩,
          ⟨⟨base ++ chainEntries (s :: rest) current n0, M⟩, []⟩) := by
      unfold findFolder popFailure
      simp only [List.headD_nil, List.tail_nil]
      rw [show chainEntries (s :: rest) current n0 =
        ⟨n0, s, current, true, false⟩ :: chainEntries rest n0 (n0 + 1) from rfl]
      rw [List.find?_append]
      rw [hnone]
      rw [List.find?_cons_of_pos (chainEntries rest n0 (n0 + 1)) hpred]
      rfl
    have hfresh2 : ∀ e ∈ base ++ [(⟨n0, s, current, true, false⟩ : Entry)],
        e.id < n0 + 1 ∧ e.parent < n0 + 1 := by
      intro e he
      rcases List.mem_append.mp he with h | h
      · have := hfresh e h
        omega
      · simp only [List.mem_singleton] at h
        subst h
        refine ⟨?_, ?_⟩
        · show n0 < n0 + 1
          omega
        · show current < n0 + 1
          omega
    have hname2 : ∀ e ∈ base ++ [(⟨n0, s, current, true, false⟩ : Entry)],
        e.isFolder = true → e.trashed = false → e.name ∈ rest → e.parent ≠ n0 := by
      intro e he _ _ _
      rcases List.mem_append.mp he with h | h
      · have := (hfresh e h).2
        omega
      · simp only [List.mem_singleton] at h
        subst h
        show current ≠ n0
        omega
    have hassoc : base ++ chainEntries (s :: rest) current n0 =
        (base ++ [(⟨n0, s, current, true, false⟩ : Entry)])
          ++ chainEntries rest n0 (n0 + 1) := by
      rw [List.append_assoc]
      rfl
    simp only [resolveSegments]
    rw [hfound]
    simp only []
    rw [hassoc]
    exact ih n0 (base ++ [(⟨n0, s, current, true, false⟩ : Entry)]) (n0 + 1) M hfresh2
      (by omega) hname2

theorem chainEntries_names : ∀ (segs : List String) (parent n : Nat),
    (chainEntries segs parent n).map Entry.name = segs := by
  intro segs
  induction segs with
  | nil => intro parent n; rfl
  | cons s rest ih =>
    intro parent n
    simp only [chainEntries, List.map_cons]
    rw [ih n (n + 1)]

theorem chainEntries_props : ∀ (segs : List String) (parent n : Nat),
    ∀ e ∈ chainEntries segs parent n, e.isFolder = true ∧ e.trashed = false := by
  intro segs
  induction segs with
  | nil =>
    intro parent n e he
    cases he
  | cons s rest ih =>
    intro parent n e he
    rcases List.mem_cons.mp he with h | h
    · subst h
      exact ⟨rfl, rfl⟩
    · exact ih n (n + 1) e h

/-- C8: resolving a logical path against a remote store containing none of
its folders creates exactly one folder per segment, in segment order (the
appended chain maps back to the segment list name for name), and returns
the final folder identifier; a second resolve of the identical path against
the resulting store returns the same identifier and leaves the store
unchanged (creates zero new folders).  The freshness hypotheses state that
the root identifier and all stored identifiers precede the identifiers the
remote side will generate. -/
theorem resolve_creates_then_idempotent (segs : List String) (root : Nat)
    (entries : List Entry) (n0 : Nat)
    (hfresh : ∀ e ∈ entries, e.id < n0 ∧ e.parent < n0)
    (hroot : root < n0)
    (hnone : ∀ e ∈ entries, e.isFolder = true → e.trashed = false →
      e.name ∉ segs) :
    resolveSegments segs root ⟨⟨entries, n0⟩, []⟩ =
      (⟨⟨entries ++ chainEntries segs root n0, n0 + segs.length⟩, []⟩,
        .ok (chainLast segs root n0))
    ∧ (chainEntries segs root n0).map Entry.name = segs
    ∧ (∀ e ∈ chainEntries segs root n0, e.isFolder = true ∧ e.trashed = false)
    ∧ resolveSegments segs root
        ⟨⟨entries ++ chainEntries segs root n0, n0 + segs.length⟩, []⟩ =
      (⟨⟨entries ++ chainEntries segs root n0, n0 + segs.length⟩, []⟩,
        .ok (chainLast segs root n0)) := by
  have hname : ∀ e ∈ entries, e.isFolder = true → e.trashed = false →
      e.name ∈ segs → e.parent ≠ root :=
    fun e he h1 h2 h3 => absurd h3 (hnone e he h1 h2)
  exact ⟨resolveSegments_creates segs root entries n0 hfresh hroot hname,
    chainEntries_names segs root n0, chainEntries_props segs root n0,
    resolveSegments_finds segs root entries n0 (n0 + segs.length) hfresh hroot hname⟩

/-- Witness for C8: path A/B on an empty store creates folders 1 and 2 and
returns 2; a second resolve returns 2 and changes nothing. -/
theorem resolve_creates_then_idempotent_witness :
    resolveSegments ["A", "B"] 0 ⟨⟨[], 1⟩, []⟩ =
      (⟨⟨[⟨1, "A", 0, true, false⟩, ⟨2, "B", 1, true, false⟩], 3⟩, []⟩, .ok 2)
    ∧ resolveSegments ["A", "B"] 0
        ⟨⟨[⟨1, "A", 0, true, false⟩, ⟨2, "B", 1, true, false⟩], 3⟩, []⟩ =
      (⟨⟨[⟨1, "A", 0, true, false⟩, ⟨2, "B", 1, true, false⟩], 3⟩, []⟩, .ok 2) := by
  have h := resolve_creates_then_idempotent ["A", "B"] 0 [] 1
    (by intro e he; cases he) (by omega)
    (by intro e he h1 h2; cases he)
  exact ⟨h.1, h.2.2.2⟩

/-- C5 counterexample: a concrete resolution during which the folder lookup
suffers a transport failure (first scripted failure), yet resolve does not
fail: the lookup error is swallowed, treated as folder-not-found, a folder
is created, and the resolution returns ok — contradicting the claim that
any underlying failure makes resolve fail with an error wrapping it. -/
theorem path_lookup_failure_not_propagated :
    resolveSegments ["A"] 0 ⟨⟨[], 1⟩, [some "transport down"]⟩ =
      (⟨⟨[⟨1, "A", 0, true, false⟩], 2⟩, []⟩, .ok 1) := rfl

/-- The remote store only grows during resolution: whatever folders were
created before a failure remain (no rollback). -/
theorem resolveSegments_entries_extend :
    ∀ (segs : List String) (cur : Nat) (st : DriveState),
    ∃ added, (resolveSegments segs cur st).1.store.entries =
      st.store.entries ++ added := by
  intro segs
  induction segs with
  | nil =>
    intro cur st
    exact ⟨[], by simp [resolveSegments]⟩
  | cons s rest ih =>
    intro cur st
    simp only [resolveSegments]
    have hff : (findFolder st cur s).2.store = st.store := by
      unfold findFolder popFailure
      cases h : st.failures.headD none <;> simp
    rcases hf : findFolder st cur s with ⟨fe, st1⟩
    rw [hf] at hff
    cases fe with
    | some e =>
      simp only []
      obtain ⟨added, hadd⟩ := ih e.id st1
      exact ⟨added, by rw [hadd, hff]⟩
    | none =>
      simp only []
      have hcf : ∃ added1, (createFolder s cur st1).1.store.entries =
          st1.store.entries ++ added1 := by
        unfold createFolder popFailure
        cases h : st1.failures.headD none <;> simp
      rcases hc : createFolder s cur st1 with ⟨st2, res⟩
      rw [hc] at hcf
      obtain ⟨added1, hadd1⟩ := hcf
      cases res with
      | ok e =>
        simp only []
        obtain ⟨added2, hadd2⟩ := ih e.id st2
        refine ⟨added1 ++ added2, ?_⟩
        rw [hadd2, hadd1, hff, List.append_assoc]
      | error msg =>
        simp only []
        exact ⟨added1, by rw [hadd1, hff]⟩

/-- C5 (amended): folder-lookup transport failures are swallowed by
findFolder (treated as folder-not-found, leading to a create attempt), so
resolution does not fail on them; a folder-creation failure makes resolve
fail by propagating that underlying error, and in that case the folders
created before the failure remain in the store (no rollback; concretely,
resolving a/b where the creation of b fails with message m returns error m
while the created folder a remains; in general the store only grows). -/
theorem path_create_failure_propagates (a b m : String) (current n : Nat)
    (hcn : current < n) :
    resolveSegments [a, b] current ⟨⟨[], n⟩, [none, none, none, some m]⟩ =
      (⟨⟨[⟨n, a, current, true, false⟩], n + 1⟩, []⟩, .error m)
    ∧ (∀ (segs : List String) (cur : Nat) (st : DriveState),
        ∃ added, (resolveSegments segs cur st).1.store.entries =
          st.store.entries ++ added) := by
  refine ⟨?_, resolveSegments_entries_extend⟩
  have hne : ((current == n) = false) := by
    simp [Nat.ne_of_lt hcn]
  simp [resolveSegments, findFolder, createFolder, popFailure, folderQuery, hne]

/-- Witness for the amended C5 at the concrete path A/B. -/
theorem path_create_failure_propagates_witness :
    resolveSegments ["A", "B"] 0 ⟨⟨[], 1⟩, [none, none, none, some "boom"]⟩ =
      (⟨⟨[⟨1, "A", 0, true, false⟩], 2⟩, []⟩, .error "boom") :=
  (path_create_failure_propagates "A" "B" "boom" 0 1 (by omega)).1


/-
  ===========================  Claim C1  ===========================
-/

theorem Outcome.success_fail (a b : String) : (Outcome.fail a b).success = false := rfl

/-- A fatal status on the first chunk send makes uploadFileToDrive return a
failed outcome carrying the original name and the chunk error message. -/
theorem uploadFile_fatal_first_chunk (env : FileEnv) (file : IncomingFile) (fid : Nat)
    (hsz : SIMPLE_UPLOAD_THRESHOLD < file.size)
    (hi1 : 200 ≤ env.initStatus) (hi2 : env.initStatus < 300)
    (h308 : (env.chunkResp 0).status ≠ 308)
    (h200 : (env.chunkResp 0).status ≠ 200)
    (h201 : (env.chunkResp 0).status ≠ 201) :
    uploadFileToDrive env file fid =
      some (.fail file.originalname
        ("Chunk upload failed: " ++ toString (env.chunkResp 0).status)) := by
  have hS : 0 < file.size := lt_of_le_of_lt (Nat.zero_le _) hsz
  have hloop : chunkLoop env.chunkResp file.size CHUNK_SIZE 0 0 =
      ([⟨0, min (0 + CHUNK_SIZE) file.size,
          mkContentRange 0 (min (0 + CHUNK_SIZE) file.size) file.size⟩],
        .chunkError (env.chunkResp 0).status) := by
    rw [chunkLoop]
    rw [dif_pos hS]
    rw [if_neg h308]
    rw [if_neg (by
      intro hc
      rcases hc with hc | hc
      · exact h200 hc
      · exact h201 hc)]
  unfold uploadFileToDrive
  rw [if_pos hsz]
  unfold resumableUpload
  rw [if_pos ⟨hi1, hi2⟩]
  rw [hloop]

/-- C1: a per-file upload error is caught and recorded as a failed outcome
for that file only, never aborting the remaining files: a batch of three
files whose middle file suffers a fatal chunk failure yields one result per
file in order — file 1 and file 3 keep their successful outcomes, file 2
gets a failed outcome — with total 3, successful 2, failed 1, and a false
batch flag; in general, whenever the driver answers with a done response,
the batch-level success flag is true if and only if the failed count is
zero, and the total equals the number of input files. -/
theorem batch_per_file_error_isolated
    (f1 f2 f3 : IncomingFile) (e1 e2 e3 : FileEnv) (fid : Nat) (o1 o3 : Outcome)
    (h1 : uploadFileToDrive e1 f1 fid = some o1) (hs1 : o1.success = true)
    (h3 : uploadFileToDrive e3 f3 fid = some o3) (hs3 : o3.success = true)
    (hsz2 : SIMPLE_UPLOAD_THRESHOLD < f2.size)
    (hi1 : 200 ≤ e2.initStatus) (hi2 : e2.initStatus < 300)
    (h308 : (e2.chunkResp 0).status ≠ 308)
    (h200 : (e2.chunkResp 0).status ≠ 200)
    (h201 : (e2.chunkResp 0).status ≠ 201)
    (htot : f1.size + f2.size + f3.size ≤ MAX_TOTAL_SIZE) :
    uploadBatch (some fid) [(f1, e1), (f2, e2), (f3, e3)] =
      .done false
        [some o1,
         some (.fail f2.originalname
           ("Chunk upload failed: " ++ toString (e2.chunkResp 0).status)),
         some o3]
        3 2 1 "Some files failed"
    ∧ (∀ (folderId : Option Nat) (files : List (IncomingFile × FileEnv))
        (flag : Bool) (rs : List (Option Outcome)) (t sc fc : Nat) (msg : String),
        uploadBatch folderId files = .done flag rs t sc fc msg →
        (flag = true ↔ fc = 0) ∧ t = files.length) := by
  constructor
  · have hu2 := uploadFile_fatal_first_chunk e2 f2 fid hsz2 hi1 hi2 h308 h200 h201
    unfold uploadBatch
    simp only [List.isEmpty_cons, Bool.false_eq_true, if_false, List.map_cons,
      List.map_nil, List.sum_cons, List.sum_nil]
    rw [if_neg (by omega : ¬ MAX_TOTAL_SIZE < f1.size + (f2.size + (f3.size + 0)))]
    rw [h1, hu2, h3]
    simp [filterResults, hs1, hs3, Outcome.success_fail]
  · intro folderId files flag rs t sc fc msg h
    cases folderId with
    | none => exact absurd h (by simp [uploadBatch])
    | some fid2 =>
      simp only [uploadBatch] at h
      by_cases hemp : files.isEmpty
      · rw [if_pos hemp] at h
        exact absurd h (by simp)
      · rw [if_neg hemp] at h
        by_cases hbig : MAX_TOTAL_SIZE < (files.map (fun p => p.1.size)).sum
        · rw [if_pos hbig] at h
          exact absurd h (by simp)
        · rw [if_neg hbig] at h
          rcases hfr : filterResults (files.map (fun p => uploadFileToDrive p.2 p.1 fid2))
            with m | ⟨succ, fails⟩
          · rw [hfr] at h
            exact absurd h (by simp)
          · rw [hfr] at h
            simp only [BatchResponse.done.injEq] at h
            obtain ⟨hflag, hrs, ht, hsc, hfc, hmsg⟩ := h
            constructor
            · rw [← hflag, ← hfc]
              cases fails <;> simp
            · rw [← ht]
              simp

/-- Witness for C1: a concrete three-file batch whose middle 6 MiB file
fails its first chunk send with status 500. -/
theorem batch_per_file_error_isolated_witness :
    uploadBatch (some 0)
      [(⟨"a.txt", 10, "t"⟩, envOkSimple),
       (⟨"b.bin", 6 * 1024 * 1024, "t"⟩, envFatalChunk),
       (⟨"c.txt", 20, "t"⟩, envOkSimple)] =
      .done false
        [some (.ok "a.txt" "a.txt" "fid-1" 10 false),
         some (.fail "b.bin" ("Chunk upload failed: " ++ toString (500 : Nat))),
         some (.ok "c.txt" "c.txt" "fid-1" 20 false)]
        3 2 1 "Some files failed" := by
  exact (batch_per_file_error_isolated
    ⟨"a.txt", 10, "t"⟩ ⟨"b.bin", 6 * 1024 * 1024, "t"⟩ ⟨"c.txt", 20, "t"⟩
    envOkSimple envFatalChunk envOkSimple 0
    (.ok "a.txt" "a.txt" "fid-1" 10 false) (.ok "c.txt" "c.txt" "fid-1" 20 false)
    rfl rfl rfl rfl
    (by decide) (by decide) (by decide) (by decide) (by decide) (by decide)
    (by decide)).1

end DriveUpload
